import Mathlib

/-!
# Verification of the RouterOS API client protocol layer

A shallow embedding of `protocol.go`: the sentence parsers (`receive` and
`asyncReceive`), the query/call word builders (`Query`, `KeepAliveCall`),
the length-prefix word codec (`prefixlen` / `getlen`), and the
challenge-response login digest computed by `Connect`.

Words arriving from the wire are modelled as a finite list of already
decoded strings (the framing layer is verified separately); the end of
that list stands for the zero-length read that follows the sentence on
the wire.  Byte strings are lists of `Nat` below 256.  Go maps holding
one grouped record are modelled as association lists with
last-write-wins update, preserving insertion order.
-/

namespace RouterOS

/-- Key-value pair for attribute, query and reply words (`Pair` in the
source).  `Op` is only used when building query filter words. -/
structure Pair where
  Key : String
  Value : String
  Op : String
deriving Repr, DecidableEq

/-- One grouped record: a string-to-string mapping modelled as an
association list in insertion order. -/
abbrev SubReply := List (String × String)

/-- A reply: flat pairs plus grouped sub-records (`Reply` in the source). -/
structure Reply where
  Pairs : List Pair
  SubPairs : List SubReply
deriving Repr, DecidableEq

/-- Query parameters (`Query` in the source): filter pairs, a combining
operator, and a property list. -/
structure Query where
  Pairs : List Pair
  Op : String
  Proplist : List String
deriving Repr, DecidableEq

/-- Go map assignment `m[k] = v` on the association-list model: replace
the value in place when the key is present, append otherwise. -/
def mapSet : SubReply → String → String → SubReply
  | [], k, v => [(k, v)]
  | (k', v') :: rest, k, v =>
      if k' = k then (k, v) :: rest else (k', v') :: mapSet rest k v

/-- Split a character list at its first `'='`, returning the parts before
and after it (`none` when no `'='` occurs).  This is the single splitting
step underlying Go's `strings.SplitN(word, "=", 3)`. -/
def splitOnceEq : List Char → Option (List Char × List Char)
  | [] => none
  | c :: rest =>
      if c = '=' then some ([], rest)
      else (splitOnceEq rest).map (fun p => (c :: p.1, p.2))

/-- Key/value extraction used by both parsers on a word containing `'='`:
`parts := strings.SplitN(word, "=", 3)`; `key = parts[1]`, and
`val = parts[2]` when three parts exist, empty otherwise.  The segment
before the first `'='` is discarded. -/
def parseKV (s : List Char) : List Char × List Char :=
  match splitOnceEq s with
  | none => ([], [])
  | some (_, r) =>
      match splitOnceEq r with
      | none => (r, [])
      | some (b, r2) => (b, r2)

/-- Whether a word contains `'='` (`strings.Contains(word, "=")`). -/
def containsEq (w : String) : Bool := w.data.contains '='

/-- Flush of the record in progress performed when a sentence ends:
append it to `SubPairs` only when non-empty. -/
def flushSub (subs : List SubReply) (sub : SubReply) : List SubReply :=
  if sub.isEmpty then subs else subs ++ [sub]

/-- Loop body of the one-shot parser `receive`, recursing over the word
stream.  State: `re` (grouped mode), `done` (saw `!done`), `sub` (record
in progress), `pairs` / `subs` (the reply under construction).  The break
condition `length == 0 && done` is the `done ∧ w = ""` test, and the end
of the word list stands for the zero-length read after the sentence:
`receive` only returns once `done` holds, otherwise it would keep
blocking on the stream (`none`). -/
def receiveLoop : List String → Bool → Bool → SubReply → List Pair →
    List SubReply → Option Reply
  | [], _, done, sub, pairs, subs =>
      if done then some ⟨pairs, flushSub subs sub⟩ else none
  | w :: ws, re, done, sub, pairs, subs =>
      if done ∧ w = "" then some ⟨pairs, flushSub subs sub⟩
      else if w = "!done" then receiveLoop ws re true sub pairs subs
      else if w = "!re" then
        if sub.isEmpty then receiveLoop ws true done sub pairs subs
        else receiveLoop ws re done [] pairs (subs ++ [sub])
      else if containsEq w then
        let kv := parseKV w.data
        if re then
          if kv.1.isEmpty then receiveLoop ws re done sub pairs subs
          else receiveLoop ws re done (mapSet sub ⟨kv.1⟩ ⟨kv.2⟩) pairs subs
        else receiveLoop ws re done sub
          (pairs ++ [⟨⟨kv.1⟩, ⟨kv.2⟩, ""⟩]) subs
      else receiveLoop ws re done sub pairs subs

/-- The one-shot sentence parser `receive`, run on a decoded word list
from the initial state. -/
def receive (ws : List String) : Option Reply :=
  receiveLoop ws false false [] [] []

/-- Loop body of the continuous parser `asyncReceive`.  `acc` collects
the replies passed to the iterator callback, one per empty-word
terminator.  The `done` test happens at the top of each iteration,
before any read; reaching the end of the word list with `done` still
false stands for a read that never completes (`none`). -/
def asyncLoop : List String → Bool → Bool → SubReply → List Pair →
    List SubReply → List Reply → Option (List Reply)
  | [], _, done, _, _, _, acc => if done then some acc else none
  | w :: rest, re, done, sub, pairs, subs, acc =>
      if done then some acc
      else
            if w = "!done" then asyncLoop rest re true sub pairs subs acc
            else if w = "" then
              asyncLoop rest false false [] [] []
                (acc ++ [⟨pairs, flushSub subs sub⟩])
            else if w = "!re" then
              if sub.isEmpty then asyncLoop rest true done sub pairs subs acc
              else asyncLoop rest re done [] pairs (subs ++ [sub]) acc
            else if containsEq w then
              let kv := parseKV w.data
              if re then
                if kv.1.isEmpty then asyncLoop rest re done sub pairs subs acc
                else asyncLoop rest re done (mapSet sub ⟨kv.1⟩ ⟨kv.2⟩)
                  pairs subs acc
              else asyncLoop rest re done sub
                (pairs ++ [⟨⟨kv.1⟩, ⟨kv.2⟩, ""⟩]) subs acc
            else asyncLoop rest re done sub pairs subs acc

/-- The continuous sentence parser `asyncReceive`, run on a decoded word
list from the initial state: `some rs` means the loop returned without
error after delivering the callback invocations `rs`. -/
def asyncReceive (ws : List String) : Option (List Reply) :=
  asyncLoop ws false false [] [] [] []

/-- Filter word sent by `Query` for one pair:
`fmt.Sprintf("?%s%s=%s", v.Op, v.Key, v.Value)`. -/
def queryFilterWord (p : Pair) : String := "?" ++ p.Op ++ p.Key ++ "=" ++ p.Value

/-- Filter word sent by `KeepAliveCall` for one pair:
`fmt.Sprintf("%s%s=%s", v.Op, v.Key, v.Value)` — no leading `?`. -/
def keepAliveFilterWord (p : Pair) : String := p.Op ++ p.Key ++ "=" ++ p.Value

/-- Word sequence sent by `Query(command, q)`: the command, the proplist
word when the proplist is non-empty, then — only when there are filter
pairs — the filter words followed by the combining-operator word when
`q.Op` is non-empty, then the empty terminator word. -/
def queryWords (command : String) (q : Query) : List String :=
  [command]
  ++ (if q.Proplist.length > 0 then
        ["=.proplist=" ++ String.intercalate "," q.Proplist] else [])
  ++ (if q.Pairs.length > 0 then
        q.Pairs.map queryFilterWord
        ++ (if q.Op ≠ "" then ["?#" ++ q.Op] else [])
      else [])
  ++ [""]

/-- Word sequence sent by `KeepAliveCall(command, q, iterator)`: the
command, the proplist word when non-empty, the filter words (without the
`?`), and the empty terminator.  No combining-operator word is sent. -/
def keepAliveWords (command : String) (q : Query) : List String :=
  [command]
  ++ (if q.Proplist.length > 0 then
        ["=.proplist=" ++ String.intercalate "," q.Proplist] else [])
  ++ (if q.Pairs.length > 0 then q.Pairs.map keepAliveFilterWord else [])
  ++ [""]

/-- Modelled from the spec: `prefixlen` (the length-prefix encoder used
by `send`) is not under `src/`, only its call site is.  Per §4.1 it
writes a self-describing variable-length integer of one to five bytes
whose first byte's high-order bits say how many continuation bytes
follow; this is the RouterOS scheme with markers `0x80`, `0xC0`, `0xE0`,
`0xF0` at widths 2, 3, 4, 5. -/
def prefixlen (l : Nat) : List Nat :=
  if l < 0x80 then [l]
  else if l < 0x4000 then [l / 0x100 + 0x80, l % 0x100]
  else if l < 0x200000 then
    [l / 0x10000 + 0xC0, l / 0x100 % 0x100, l % 0x100]
  else if l < 0x10000000 then
    [l / 0x1000000 + 0xE0, l / 0x10000 % 0x100, l / 0x100 % 0x100,
     l % 0x100]
  else
    [0xF0, l / 0x1000000 % 0x100, l / 0x10000 % 0x100, l / 0x100 % 0x100,
     l % 0x100]

/-- Modelled from the spec: `getlen` (the length-prefix decoder used by
`receive`) is not under `src/`.  It reads the first byte, whose
high-order bits select the width, then the continuation bytes; the
decoded length and the remaining stream are returned, `none` standing
for a stream too short to hold the declared prefix. -/
def getlen : List Nat → Option (Nat × List Nat)
  | [] => none
  | b0 :: rest =>
      if b0 < 0x80 then some (b0, rest)
      else if b0 < 0xC0 then
        match rest with
        | b1 :: r => some ((b0 - 0x80) * 0x100 + b1, r)
        | [] => none
      else if b0 < 0xE0 then
        match rest with
        | b1 :: b2 :: r =>
            some ((b0 - 0xC0) * 0x10000 + b1 * 0x100 + b2, r)
        | _ => none
      else if b0 < 0xF0 then
        match rest with
        | b1 :: b2 :: b3 :: r =>
            some ((b0 - 0xE0) * 0x1000000 + b1 * 0x10000 + b2 * 0x100
              + b3, r)
        | _ => none
      else if b0 = 0xF0 then
        match rest with
        | b1 :: b2 :: b3 :: b4 :: r =>
            some (b1 * 0x1000000 + b2 * 0x10000 + b3 * 0x100 + b4, r)
        | _ => none
      else none

/-! ## MD5 and the login digest

`Connect` hashes a zero byte, the password and the challenge with
`crypto/md5` and formats the digest with `fmt.Sprintf("00%x", ...)`.
MD5 is implemented here concretely over byte lists (`Nat` below 256),
with 32-bit words as `Nat` reduced modulo `2 ^ 32`. -/

/-- Rotate a 32-bit word left by `n` bits. -/
def rotl32 (x n : Nat) : Nat :=
  ((x <<< n) ||| (x >>> (32 - n))) &&& 0xFFFFFFFF

/-- The 64 MD5 sine-table constants. -/
def md5K : List Nat :=
  [0xd76aa478, 0xe8c7b756, 0x242070db, 0xc1bdceee,
   0xf57c0faf, 0x4787c62a, 0xa8304613, 0xfd469501,
   0x698098d8, 0x8b44f7af, 0xffff5bb1, 0x895cd7be,
   0x6b901122, 0xfd987193, 0xa679438e, 0x49b40821,
   0xf61e2562, 0xc040b340, 0x265e5a51, 0xe9b6c7aa,
   0xd62f105d, 0x02441453, 0xd8a1e681, 0xe7d3fbc8,
   0x21e1cde6, 0xc33707d6, 0xf4d50d87, 0x455a14ed,
   0xa9e3e905, 0xfcefa3f8, 0x676f02d9, 0x8d2a4c8a,
   0xfffa3942, 0x8771f681, 0x6d9d6122, 0xfde5380c,
   0xa4beea44, 0x4bdecfa9, 0xf6bb4b60, 0xbebfbc70,
   0x289b7ec6, 0xeaa127fa, 0xd4ef3085, 0x04881d05,
   0xd9d4d039, 0xe6db99e5, 0x1fa27cf8, 0xc4ac5665,
   0xf4292244, 0x432aff97, 0xab9423a7, 0xfc93a039,
   0x655b59c3, 0x8f0ccc92, 0xffeff47d, 0x85845dd1,
   0x6fa87e4f, 0xfe2ce6e0, 0xa3014314, 0x4e0811a1,
   0xf7537e82, 0xbd3af235, 0x2ad7d2bb, 0xeb86d391]

/-- The 64 MD5 per-round shift amounts. -/
def md5S : List Nat :=
  [7, 12, 17, 22, 7, 12, 17, 22, 7, 12, 17, 22, 7, 12, 17, 22,
   5, 9, 14, 20, 5, 9, 14, 20, 5, 9, 14, 20, 5, 9, 14, 20,
   4, 11, 16, 23, 4, 11, 16, 23, 4, 11, 16, 23, 4, 11, 16, 23,
   6, 10, 15, 21, 6, 10, 15, 21, 6, 10, 15, 21, 6, 10, 15, 21]

/-- The four MD5 working registers. -/
structure MD5State where
  a : Nat
  b : Nat
  c : Nat
  d : Nat
deriving Repr, DecidableEq

/-- One of the 64 MD5 round steps applied to the working registers,
given the sixteen message words `m` of the current block. -/
def md5Step (m : List Nat) (st : MD5State) (i : Nat) : MD5State :=
  let b := st.b
  let c := st.c
  let d := st.d
  let f :=
    if i < 16 then (b &&& c) ||| ((0xFFFFFFFF ^^^ b) &&& d)
    else if i < 32 then (b &&& d) ||| (c &&& (0xFFFFFFFF ^^^ d))
    else if i < 48 then b ^^^ c ^^^ d
    else c ^^^ (b ||| (0xFFFFFFFF ^^^ d))
  let g :=
    if i < 16 then i
    else if i < 32 then (5 * i + 1) % 16
    else if i < 48 then (3 * i + 5) % 16
    else 7 * i % 16
  let tmp := (st.a + f + md5K.getD i 0 + m.getD g 0) % 0x100000000
  ⟨d, (b + rotl32 tmp (md5S.getD i 0)) % 0x100000000, b, c⟩

/-- Little-endian 32-bit word number `j` of a 64-byte block. -/
def leWord (block : List Nat) (j : Nat) : Nat :=
  block.getD (4 * j) 0 + block.getD (4 * j + 1) 0 * 0x100
  + block.getD (4 * j + 2) 0 * 0x10000
  + block.getD (4 * j + 3) 0 * 0x1000000

/-- Compress one 64-byte block into the chaining state. -/
def md5Block (st : MD5State) (block : List Nat) : MD5State :=
  let m := (List.range 16).map (leWord block)
  let r := (List.range 64).foldl (md5Step m) st
  ⟨(st.a + r.a) % 0x100000000, (st.b + r.b) % 0x100000000,
   (st.c + r.c) % 0x100000000, (st.d + r.d) % 0x100000000⟩

/-- Split a byte list into 64-byte chunks, with fuel bounding the chunk
count so the recursion is structural. -/
def chunksAux : Nat → List Nat → List (List Nat)
  | 0, _ => []
  | fuel + 1, l =>
      if l.isEmpty then [] else l.take 64 :: chunksAux fuel (l.drop 64)

/-- Split a byte list into 64-byte chunks. -/
def chunks64 (l : List Nat) : List (List Nat) := chunksAux (l.length + 1) l

/-- A 64-bit value as eight little-endian bytes. -/
def leBytes8 (n : Nat) : List Nat :=
  [n % 0x100, n / 0x100 % 0x100, n / 0x10000 % 0x100,
   n / 0x1000000 % 0x100, n / 0x100000000 % 0x100,
   n / 0x10000000000 % 0x100, n / 0x1000000000000 % 0x100,
   n / 0x100000000000000 % 0x100]

/-- A 32-bit word as four little-endian bytes. -/
def leBytes4 (n : Nat) : List Nat :=
  [n % 0x100, n / 0x100 % 0x100, n / 0x10000 % 0x100,
   n / 0x1000000 % 0x100]

/-- MD5 padding: a `0x80` byte, zeros up to 56 modulo 64, then the bit
length as a little-endian 64-bit value. -/
def md5Pad (msg : List Nat) : List Nat :=
  msg ++ 0x80 :: List.replicate ((119 - msg.length % 64) % 64) 0
    ++ leBytes8 (msg.length * 8 % 0x10000000000000000)

/-- The MD5 digest of a byte list, as sixteen bytes. -/
def md5 (msg : List Nat) : List Nat :=
  let st := (chunks64 (md5Pad msg)).foldl md5Block
    ⟨0x67452301, 0xefcdab89, 0x98badcfe, 0x10325476⟩
  leBytes4 st.a ++ leBytes4 st.b ++ leBytes4 st.c ++ leBytes4 st.d

/-- Lowercase hexadecimal digit for a value below 16. -/
def hexDigitChar (n : Nat) : Char :=
  "0123456789abcdef".data.getD n '0'

/-- Go's `%x` on a byte slice: two lowercase hexadecimal digits per
byte. -/
def bytesToHex (bs : List Nat) : String :=
  String.join (bs.map (fun b => String.mk [hexDigitChar (b / 16), hexDigitChar (b % 16)]))

/-- The UTF-8 encoding of one character, as `Nat` byte values. -/
def utf8EncodeCharBytes (c : Char) : List Nat :=
  let n := c.toNat
  if n < 0x80 then [n]
  else if n < 0x800 then [0xC0 + n / 0x40, 0x80 + n % 0x40]
  else if n < 0x10000 then
    [0xE0 + n / 0x1000, 0x80 + n / 0x40 % 0x40, 0x80 + n % 0x40]
  else
    [0xF0 + n / 0x40000, 0x80 + n / 0x1000 % 0x40, 0x80 + n / 0x40 % 0x40,
     0x80 + n % 0x40]

/-- The UTF-8 bytes of a string, as `Nat` values. -/
def utf8Bytes (s : String) : List Nat :=
  s.data.foldr (fun c acc => utf8EncodeCharBytes c ++ acc) []

/-- The running MD5 hasher state, abstracted functionally as the bytes
written so far (`md5.New()` starts empty). -/
def md5HasherInit : List Nat := []

/-- Writing bytes to the running hasher (`h.Write` / `io.WriteString`). -/
def md5HasherWrite (ctx bs : List Nat) : List Nat := ctx ++ bs

/-- The digest of the running hasher (`h.Sum(nil)`). -/
def md5HasherSum (ctx : List Nat) : List Nat := md5 ctx

/-- The login response string computed inside `Connect`: write the
one-byte string `"\x00"`, the password, and the raw challenge bytes to
an MD5 hasher, then format `fmt.Sprintf("00%x", h.Sum(nil))`. -/
def connectResponse (password : String) (challenge : List Nat) : String :=
  "00" ++ bytesToHex (md5HasherSum (md5HasherWrite (md5HasherWrite
    (md5HasherWrite md5HasherInit (utf8Bytes "\x00"))
    (utf8Bytes password)) challenge))

/-- Decode one hexadecimal digit (`encoding/hex` accepts `0-9`, `a-f`,
`A-F`). -/
def hexDigitVal (c : Char) : Option Nat :=
  if '0' ≤ c ∧ c ≤ '9' then some (c.toNat - '0'.toNat)
  else if 'a' ≤ c ∧ c ≤ 'f' then some (c.toNat - 'a'.toNat + 10)
  else if 'A' ≤ c ∧ c ≤ 'F' then some (c.toNat - 'A'.toNat + 10)
  else none

/-- Go's `hex.DecodeString` on a character list: pairs of digits become
bytes; an odd length or an invalid digit is an error. -/
def hexDecodeAux : List Char → Option (List Nat)
  | [] => some []
  | [_] => none
  | a :: b :: rest =>
      match hexDigitVal a, hexDigitVal b, hexDecodeAux rest with
      | some ha, some hb, some bs => some ((ha * 16 + hb) :: bs)
      | _, _, _ => none

/-- Go's `hex.DecodeString`. -/
def hexDecode (s : String) : Option (List Nat) := hexDecodeAux s.data

/-- The client state (`Client` in the source): the connection is an
abstract token, `none` while not dialled. -/
structure Client where
  address : String
  user : String
  password : String
  debug : Bool
  ready : Bool
  conn : Option Nat
deriving Repr, DecidableEq

/-- `New(address)`: after host-port validation succeeds, a zero-valued
client holding only the address — every other field, `ready` included,
is the Go zero value. -/
def newClient (address : String) : Client :=
  ⟨address, "", "", false, false, none⟩

/-- `GetPairVal` on a pair list: the value of the first pair whose key
matches, or a not-found error. -/
def getPairVal (pairs : List Pair) (key : String) : Except String String :=
  match pairs with
  | [] => .error "key not found"
  | p :: rest => if p.Key = key then .ok p.Value else getPairVal rest key

/-- The environment `Connect` runs against: whether the dial succeeds,
the reply of the first `/login` call, and the reply of the second
`/login` call as a function of the parameters sent. -/
structure ConnectEnv where
  dialOk : Bool
  firstCall : Except String Reply
  secondCall : List Pair → Except String Reply

/-- `Connect(user, password)` as a state transition on the client,
following the source line by line: dial and stash the connection, call
`/login`, extract the `ret` challenge, hex-decode it, compute the MD5
response, call `/login` again with `name` and `response` pairs, and
demand an empty flat pair list.  The returned client carries every field
update the source performs (only `conn` is ever assigned). -/
def connect (c : Client) (user password : String) (env : ConnectEnv) :
    Client × Option String :=
  if ¬ env.dialOk then (c, some "dial error")
  else
    let c1 : Client := { c with conn := some 1 }
    match env.firstCall with
    | .error e => (c1, some e)
    | .ok res =>
        match getPairVal res.Pairs "ret" with
        | .error _ => (c1, some "Didn't get challenge from ROS")
        | .ok challengeEnc =>
            match hexDecode challengeEnc with
            | none => (c1, some "hex decode error")
            | some challenge =>
                let resp := connectResponse password challenge
                let loginParams : List Pair :=
                  [⟨"name", user, ""⟩, ⟨"response", resp, ""⟩]
                match env.secondCall loginParams with
                | .error e => (c1, some e)
                | .ok res2 =>
                    if res2.Pairs.length > 0 then
                      (c1, some "Unexpected result on login")
                    else (c1, none)

/-! ## Theorems -/

/-- The one-shot loop can only return once `done` has been set, and only
the word `"!done"` sets it: on a stream with no `"!done"` the loop runs
off the end still waiting (`none`). -/
theorem receiveLoop_no_done (ws : List String) :
    ∀ (re : Bool) (sub : SubReply) (pairs : List Pair)
      (subs : List SubReply), "!done" ∉ ws →
      receiveLoop ws re false sub pairs subs = none := by
  induction ws with
  | nil => intro re sub pairs subs _; rfl
  | cons w ws ih =>
      intro re sub pairs subs h
      simp only [List.mem_cons, not_or] at h
      obtain ⟨hw, hws⟩ := h
      simp only [receiveLoop]
      rw [if_neg (by simp), if_neg (fun he => hw he.symm)]
      repeat' split
      all_goals exact ih _ _ _ _ hws

/-- C1: the one-shot parser treats `"!done"` as the sentence terminator:
the flat example sentence parses to exactly its two pairs in order with
no sub-records, and a word stream that never carries `"!done"` never
produces a reply. -/
theorem c1_done_terminates_flat_sentence :
    receive ["=name=eth0", "=type=ether", "!done"] =
      some ⟨[⟨"name", "eth0", ""⟩, ⟨"type", "ether", ""⟩], []⟩ ∧
    ∀ ws : List String, "!done" ∉ ws → receive ws = none := by
  refine ⟨by decide, fun ws h => ?_⟩
  exact receiveLoop_no_done ws false [] [] [] h

/-- Closed instance of `c1_done_terminates_flat_sentence`. -/
theorem c1_done_terminates_flat_sentence_witness :
    receive ["=name=eth0", "=type=ether"] = none :=
  c1_done_terminates_flat_sentence.2 ["=name=eth0", "=type=ether"]
    (by decide)

/-- C2: in the one-shot parser `"!re"` starts a new grouped record — a
non-empty record in progress is flushed to `SubPairs` and a fresh one
opened, an empty one just switches the parser to grouped mode — and the
grouped example sentence parses to its two records in order with no flat
pairs, the final record flushed at the terminator. -/
theorem c2_re_starts_new_record :
    (∀ (ws : List String) (re done : Bool) (sub : SubReply)
       (pairs : List Pair) (subs : List SubReply), sub ≠ [] →
       receiveLoop ("!re" :: ws) re done sub pairs subs =
         receiveLoop ws re done [] pairs (subs ++ [sub])) ∧
    (∀ (ws : List String) (re done : Bool) (pairs : List Pair)
       (subs : List SubReply),
       receiveLoop ("!re" :: ws) re done [] pairs subs =
         receiveLoop ws true done [] pairs subs) ∧
    receive ["!re", "=.id=*1", "=name=eth0", "!re", "=.id=*2",
        "=name=eth1", "!done"] =
      some ⟨[], [[(".id", "*1"), ("name", "eth0")],
                 [(".id", "*2"), ("name", "eth1")]]⟩ := by
  refine ⟨fun ws re done sub pairs subs h => ?_,
    fun ws re done pairs subs => ?_, by decide⟩
  · simp [receiveLoop, h]
  · simp [receiveLoop]

/-- Closed instance of `c2_re_starts_new_record`. -/
theorem c2_re_starts_new_record_witness :
    receiveLoop ["!re"] true false [("name", "eth0")] [] [] =
      receiveLoop [] true false [] [] [[("name", "eth0")]] :=
  c2_re_starts_new_record.1 [] true false [("name", "eth0")] [] []
    (by decide)

/-- Once `done` is set, the continuous loop returns the accumulated
callback replies at the top of the next iteration, whatever is left in
the stream. -/
theorem asyncLoop_done (ws : List String) (re : Bool) (sub : SubReply)
    (pairs : List Pair) (subs : List SubReply) (acc : List Reply) :
    asyncLoop ws re true sub pairs subs acc = some acc := by
  cases ws <;> simp [asyncLoop]

/-- C9: in both parsers, a word that is not `"!done"`, not `"!re"`, not
empty and contains no `'='` (such as `"!trap"`) is silently discarded:
the loop continues on the rest of the stream with every piece of state —
mode flags, record in progress, accumulated pairs, sub-records and
delivered replies — unchanged, and no error arises. -/
theorem c9_unknown_words_discarded :
    ∀ w : String, w ≠ "!done" → w ≠ "!re" → w ≠ "" →
      containsEq w = false →
    ∀ (ws : List String) (re done : Bool) (sub : SubReply)
      (pairs : List Pair) (subs : List SubReply) (acc : List Reply),
      receiveLoop (w :: ws) re done sub pairs subs =
        receiveLoop ws re done sub pairs subs ∧
      asyncLoop (w :: ws) re done sub pairs subs acc =
        asyncLoop ws re done sub pairs subs acc := by
  intro w hdone hre hempty heq ws re done sub pairs subs acc
  constructor
  · simp only [receiveLoop]
    rw [if_neg (fun hc => hempty hc.2), if_neg hdone, if_neg hre,
      if_neg (by simp [heq])]
  · by_cases hd : done = true
    · subst hd
      rw [asyncLoop_done, asyncLoop_done]
    · simp only [asyncLoop]
      rw [if_neg hd, if_neg hdone, if_neg hempty, if_neg hre,
        if_neg (by simp [heq])]

/-- Closed instance of `c9_unknown_words_discarded`. -/
theorem c9_unknown_words_discarded_witness :
    receiveLoop ["!trap"] false false [] [] [] =
      receiveLoop [] false false [] [] [] ∧
    asyncLoop ["!trap"] false false [] [] [] [] =
      asyncLoop [] false false [] [] [] [] :=
  c9_unknown_words_discarded "!trap" (by decide) (by decide) (by decide)
    (by decide) [] false false [] [] [] []

/-- A character list without `'='` yields no split. -/
theorem splitOnceEq_of_not_mem (a : List Char) (h : '=' ∉ a) :
    splitOnceEq a = none := by
  induction a with
  | nil => rfl
  | cons c rest ih =>
      simp only [List.mem_cons, not_or] at h
      simp only [splitOnceEq]
      rw [if_neg (fun hc => h.1 hc.symm), ih h.2]
      rfl

/-- Splitting at the first `'='`: everything before it must be
`'='`-free. -/
theorem splitOnceEq_append (a r : List Char) (h : '=' ∉ a) :
    splitOnceEq (a ++ '=' :: r) = some (a, r) := by
  induction a with
  | nil => simp [splitOnceEq]
  | cons c rest ih =>
      simp only [List.mem_cons, not_or] at h
      simp only [List.cons_append, splitOnceEq]
      rw [if_neg (fun hc => h.1 hc.symm)]
      simp [ih h.2]

/-- C10: the segment before the first `'='` of a word is discarded
unconditionally.  With exactly one `'='` the key is the text after it
and the value is empty; with two or more, the key is the segment between
the first two and the value is everything after the second — so the word
`"abc=def"` decodes to the pair `("def", "")`. -/
theorem c10_first_segment_discarded :
    (∀ a b : List Char, '=' ∉ a → '=' ∉ b →
       parseKV (a ++ '=' :: b) = (b, [])) ∧
    (∀ a b c : List Char, '=' ∉ a → '=' ∉ b →
       parseKV (a ++ '=' :: b ++ '=' :: c) = (b, c)) ∧
    receive ["abc=def", "!done"] = some ⟨[⟨"def", "", ""⟩], []⟩ := by
  refine ⟨fun a b ha hb => ?_, fun a b c ha hb => ?_, by decide⟩
  · unfold parseKV
    rw [splitOnceEq_append a b ha]
    simp [splitOnceEq_of_not_mem b hb]
  · unfold parseKV
    rw [show a ++ '=' :: b ++ '=' :: c = a ++ '=' :: (b ++ '=' :: c) by
        simp, splitOnceEq_append a _ ha]
    simp [splitOnceEq_append b c hb]

/-- Closed instance of `c10_first_segment_discarded`. -/
theorem c10_first_segment_discarded_witness :
    parseKV ("abc".data ++ '=' :: "def".data) = ("def".data, []) :=
  c10_first_segment_discarded.1 "abc".data "def".data (by decide)
    (by decide)

/-- The continuous loop can only return once `done` has been set, and
only the word `"!done"` sets it (the empty word resets it): on a stream
with no `"!done"` the loop runs off the end still waiting (`none`). -/
theorem asyncLoop_no_done (ws : List String) :
    ∀ (re : Bool) (sub : SubReply) (pairs : List Pair)
      (subs : List SubReply) (acc : List Reply), "!done" ∉ ws →
      asyncLoop ws re false sub pairs subs acc = none := by
  induction ws with
  | nil => intros; rfl
  | cons w ws ih =>
      intro re sub pairs subs acc h
      simp only [List.mem_cons, not_or] at h
      obtain ⟨hw, hws⟩ := h
      simp only [asyncLoop]
      rw [if_neg (by simp), if_neg (fun he => hw he.symm)]
      repeat' split
      all_goals exact ih _ _ _ _ _ hws

/-- C5, counterexample to the claim as stated: the continuous parser
does return without an error on a received word — on `"!done"` it stops
at the top of the next iteration and returns normally, here with zero
callback invocations. -/
theorem c5_counterexample : asyncReceive ["!done"] = some [] := by decide

/-- C5, amended: the continuous parser invokes the callback once per
empty-word-terminated reply and never returns on its own as long as no
`"!done"` arrives; but on receiving `"!done"` it returns without error,
discarding any partially accumulated reply without invoking the
callback. -/
theorem c5_async_runs_until_done :
    (∀ ws : List String, "!done" ∉ ws → asyncReceive ws = none) ∧
    asyncReceive ["=a=b", "", "!re", "=x=y", "", "!done"] =
      some [⟨[⟨"a", "b", ""⟩], []⟩, ⟨[], [[("x", "y")]]⟩] ∧
    asyncReceive ["=a=b", "!done"] = some [] := by
  exact ⟨fun ws h => asyncLoop_no_done ws false [] [] [] [] h,
    by decide, by decide⟩

/-- Closed instance of `c5_async_runs_until_done`. -/
theorem c5_async_runs_until_done_witness :
    asyncReceive ["=a=b", ""] = none :=
  c5_async_runs_until_done.1 ["=a=b", ""] (by decide)

/-- Closed form of the `Query` word sequence: command, optional proplist
word, filter words, the combining-operator word only when there are
filter pairs AND a non-empty operator, terminator. -/
theorem queryWords_eq (command : String) (q : Query) :
    queryWords command q =
      [command]
      ++ (if q.Proplist = [] then []
          else ["=.proplist=" ++ String.intercalate "," q.Proplist])
      ++ q.Pairs.map queryFilterWord
      ++ (if q.Pairs ≠ [] ∧ q.Op ≠ "" then ["?#" ++ q.Op] else [])
      ++ [""] := by
  obtain ⟨ps, op, pl⟩ := q
  unfold queryWords
  cases ps with
  | nil => cases pl <;> simp
  | cons p ps' =>
      cases pl <;> by_cases hop : op = "" <;> simp [hop]

/-- Closed form of the `KeepAliveCall` word sequence: command, optional
proplist word, filter words without the `?`, terminator; never a
combining-operator word. -/
theorem keepAliveWords_eq (command : String) (q : Query) :
    keepAliveWords command q =
      [command]
      ++ (if q.Proplist = [] then []
          else ["=.proplist=" ++ String.intercalate "," q.Proplist])
      ++ q.Pairs.map keepAliveFilterWord
      ++ [""] := by
  obtain ⟨ps, op, pl⟩ := q
  unfold keepAliveWords
  cases ps with
  | nil => cases pl <;> simp
  | cons p ps' => cases pl <;> simp

/-- C6, counterexample to the claim as stated: with an empty filter list
but a non-empty combining operator, `Query` sends no `?#<op>` word at
all — the operator word is nested inside the non-empty-pairs branch. -/
theorem c6_counterexample :
    queryWords "/interface/print" ⟨[], "&", []⟩ =
      ["/interface/print", ""] ∧
    "?#&" ∉ queryWords "/interface/print" ⟨[], "&", []⟩ := by decide

/-- C6, amended: `Query` emits the command, then the proplist word when
the proplist is non-empty, then the filter words `?<op><key>=<value>` in
list order with the operator prefixed exactly once, then — only when the
filter list is non-empty and `q.Op` is non-empty — the word `?#<op>`,
then the empty terminator. -/
theorem c6_query_word_order (command : String) (q : Query) :
    queryWords command q =
      [command]
      ++ (if q.Proplist = [] then []
          else ["=.proplist=" ++ String.intercalate "," q.Proplist])
      ++ q.Pairs.map queryFilterWord
      ++ (if q.Pairs ≠ [] ∧ q.Op ≠ "" then ["?#" ++ q.Op] else [])
      ++ [""] :=
  queryWords_eq command q

/-- C4, counterexample to the claim as stated: with a single filter pair
and no combining operator the claim demands identical word sequences,
but `KeepAliveCall` sends the filter without the leading `?` that
`Query` prefixes. -/
theorem c4_counterexample :
    queryWords "/ip/address/listen" ⟨[⟨"interface", "ether1", "="⟩], "", []⟩ =
      ["/ip/address/listen", "?=interface=ether1", ""] ∧
    keepAliveWords "/ip/address/listen"
        ⟨[⟨"interface", "ether1", "="⟩], "", []⟩ =
      ["/ip/address/listen", "=interface=ether1", ""] := by decide

/-- C4, amended: `KeepAliveCall` sends the same word sequence as `Query`
for the same arguments except that it never sends the combining `?#<op>`
word and each filter pair is sent as `<op><key>=<value>`, without the
leading `?` that `Query` prefixes to the same pair. -/
theorem c4_keepalive_vs_query_words (command : String) (q : Query) :
    keepAliveWords command q =
      [command]
      ++ (if q.Proplist = [] then []
          else ["=.proplist=" ++ String.intercalate "," q.Proplist])
      ++ q.Pairs.map keepAliveFilterWord
      ++ [""] ∧
    queryWords command q =
      [command]
      ++ (if q.Proplist = [] then []
          else ["=.proplist=" ++ String.intercalate "," q.Proplist])
      ++ q.Pairs.map (fun p => "?" ++ keepAliveFilterWord p)
      ++ (if q.Pairs ≠ [] ∧ q.Op ≠ "" then ["?#" ++ q.Op] else [])
      ++ [""] := by
  refine ⟨keepAliveWords_eq command q, ?_⟩
  rw [queryWords_eq]
  simp [queryFilterWord, keepAliveFilterWord, String.append_assoc]

/-- Decoding a one-byte length prefix. -/
theorem getlen_one (b0 : Nat) (rest : List Nat) (h : b0 < 0x80) :
    getlen (b0 :: rest) = some (b0, rest) := by
  simp [getlen, h]

/-- Decoding a two-byte length prefix. -/
theorem getlen_two (b0 b1 : Nat) (rest : List Nat) (h1 : 0x80 ≤ b0)
    (h2 : b0 < 0xC0) :
    getlen (b0 :: b1 :: rest) = some ((b0 - 0x80) * 0x100 + b1, rest) := by
  simp only [getlen]
  rw [if_neg (by omega), if_pos (by omega)]

/-- Decoding a three-byte length prefix. -/
theorem getlen_three (b0 b1 b2 : Nat) (rest : List Nat) (h1 : 0xC0 ≤ b0)
    (h2 : b0 < 0xE0) :
    getlen (b0 :: b1 :: b2 :: rest) =
      some ((b0 - 0xC0) * 0x10000 + b1 * 0x100 + b2, rest) := by
  simp only [getlen]
  rw [if_neg (by omega), if_neg (by omega), if_pos (by omega)]

/-- Decoding a four-byte length prefix. -/
theorem getlen_four (b0 b1 b2 b3 : Nat) (rest : List Nat)
    (h1 : 0xE0 ≤ b0) (h2 : b0 < 0xF0) :
    getlen (b0 :: b1 :: b2 :: b3 :: rest) =
      some ((b0 - 0xE0) * 0x1000000 + b1 * 0x10000 + b2 * 0x100 + b3,
        rest) := by
  simp only [getlen]
  rw [if_neg (by omega), if_neg (by omega), if_neg (by omega),
    if_pos (by omega)]

/-- Decoding a five-byte length prefix. -/
theorem getlen_five (b1 b2 b3 b4 : Nat) (rest : List Nat) :
    getlen (0xF0 :: b1 :: b2 :: b3 :: b4 :: rest) =
      some (b1 * 0x1000000 + b2 * 0x10000 + b3 * 0x100 + b4, rest) := rfl

/-- C3: for every length the format supports (up to the five-byte
maximum `2 ^ 32 - 1`), decoding the encoding yields the length back with
the remaining stream untouched, and the encoding widths switch exactly
at the claimed boundaries: `0x7F`/`0x80`, `0x3FFF`/`0x4000`,
`0x1FFFFF`/`0x200000`, `0xFFFFFFF`/`0x10000000`. -/
theorem c3_prefixlen_getlen_roundtrip :
    (∀ (l : Nat) (rest : List Nat), l < 0x100000000 →
       getlen (prefixlen l ++ rest) = some (l, rest)) ∧
    (prefixlen 0x7F).length = 1 ∧ (prefixlen 0x80).length = 2 ∧
    (prefixlen 0x3FFF).length = 2 ∧ (prefixlen 0x4000).length = 3 ∧
    (prefixlen 0x1FFFFF).length = 3 ∧ (prefixlen 0x200000).length = 4 ∧
    (prefixlen 0xFFFFFFF).length = 4 ∧
    (prefixlen 0x10000000).length = 5 := by
  refine ⟨fun l rest h => ?_, by decide, by decide, by decide, by decide,
    by decide, by decide, by decide, by decide⟩
  unfold prefixlen
  split_ifs with h1 h2 h3 h4
  · rw [List.cons_append, List.nil_append, getlen_one _ _ h1]
  · simp only [List.cons_append, List.nil_append]
    rw [getlen_two _ _ _ (by omega) (by omega)]
    have he : (l / 0x100 + 0x80 - 0x80) * 0x100 + l % 0x100 = l := by
      omega
    rw [he]
  · simp only [List.cons_append, List.nil_append]
    rw [getlen_three _ _ _ _ (by omega) (by omega)]
    have he : (l / 0x10000 + 0xC0 - 0xC0) * 0x10000
        + l / 0x100 % 0x100 * 0x100 + l % 0x100 = l := by omega
    rw [he]
  · simp only [List.cons_append, List.nil_append]
    rw [getlen_four _ _ _ _ _ (by omega) (by omega)]
    have he : (l / 0x1000000 + 0xE0 - 0xE0) * 0x1000000
        + l / 0x10000 % 0x100 * 0x10000 + l / 0x100 % 0x100 * 0x100
        + l % 0x100 = l := by omega
    rw [he]
  · simp only [List.cons_append, List.nil_append]
    rw [getlen_five]
    have he : l / 0x1000000 % 0x100 * 0x1000000
        + l / 0x10000 % 0x100 * 0x10000 + l / 0x100 % 0x100 * 0x100
        + l % 0x100 = l := by omega
    rw [he]

/-- Closed instance of `c3_prefixlen_getlen_roundtrip`. -/
theorem c3_prefixlen_getlen_roundtrip_witness :
    getlen (prefixlen 0x200000 ++ [0x21, 0x72, 0x65]) =
      some (0x200000, [0x21, 0x72, 0x65]) :=
  c3_prefixlen_getlen_roundtrip.1 0x200000 [0x21, 0x72, 0x65] (by decide)

set_option maxRecDepth 10000 in
/-- The MD5 model agrees with the standard test vector for the empty
message. -/
theorem md5_empty_vector :
    bytesToHex (md5 []) = "d41d8cd98f00b204e9800998ecf8427e" := by decide

/-- C7: the login response computed by `Connect` is the literal prefix
`"00"` followed by the lowercase hex encoding of the MD5 digest of one
zero byte, then the UTF-8 bytes of the password, then the raw challenge
bytes, concatenated in that order. -/
theorem c7_login_response_digest (password : String)
    (challenge : List Nat) :
    connectResponse password challenge =
      "00" ++ bytesToHex (md5 (0 :: (utf8Bytes password ++ challenge))) := by
  unfold connectResponse md5HasherSum md5HasherWrite md5HasherInit
  have h0 : utf8Bytes "\x00" = [0] := by decide
  rw [h0]
  simp

/-- C8: `Connect` never assigns the `ready` flag — the only field it
ever updates is the stashed connection — so even a fully successful
handshake (challenge extracted, digest sent, empty second reply, no
error returned) leaves a freshly constructed client with
`ready = false`, contradicting the lifecycle the `ready` field's own
documentation describes. -/
theorem c8_ready_never_set :
    (∀ (c : Client) (user pw : String) (env : ConnectEnv),
       ((connect c user pw env).1).ready = c.ready) ∧
    (newClient "10.0.0.1:8728").ready = false ∧
    (connect (newClient "10.0.0.1:8728") "admin" "secret"
        ⟨true, Except.ok ⟨[⟨"ret", "00112233", ""⟩], []⟩,
         fun _ => Except.ok ⟨[], []⟩⟩).2 = none ∧
    ((connect (newClient "10.0.0.1:8728") "admin" "secret"
        ⟨true, Except.ok ⟨[⟨"ret", "00112233", ""⟩], []⟩,
         fun _ => Except.ok ⟨[], []⟩⟩).1).ready = false := by
  refine ⟨fun c u p env => ?_, rfl, ?_, ?_⟩
  · unfold connect
    dsimp only
    repeat' split
    all_goals rfl
  · rfl
  · rfl

end RouterOS
